import Mathlib

/-!
Shallow embedding of the `servidor_http` HTTP codec
(`src/request/mod.rs` and the response behaviour pinned by
`tests/test_response.rs`), together with theorems settling the claims
about its specification.

Strings are embedded as `List Char` (Rust `&str` / `String`) and raw
byte buffers as `List Nat` (Rust `Vec<u8>`, each element `< 256`).
-/

set_option maxRecDepth 10000

abbrev Str := List Char

/-- Check whether `pat` is an initial segment of `l`
(Rust slice `starts_with`, used to model substring search). -/
def leadsWith {α : Type} [DecidableEq α] : List α → List α → Bool
  | [], _ => true
  | _ :: _, [] => false
  | a :: as, b :: bs => a = b && leadsWith as bs

/-- Substring / subsequence-of-contiguous-elements test:
models Rust `str::contains(&str)` and the existence part of
`slice::windows(n).position(..)`. -/
def containsSub {α : Type} [DecidableEq α] (pat : List α) : List α → Bool
  | [] => leadsWith pat ([] : List α)
  | x :: xs => leadsWith pat (x :: xs) || containsSub pat xs

/-- Index of the first window of `l` equal to `pat`:
models Rust `l.windows(pat.len()).position(|w| w == pat)`. -/
def findSeq {α : Type} [DecidableEq α] (pat : List α) : List α → Option Nat
  | [] => if leadsWith pat ([] : List α) then some 0 else none
  | x :: xs => if leadsWith pat (x :: xs) then some 0 else (findSeq pat xs).map (· + 1)

/-- Models Rust `str::contains(char)`. -/
def containsChar (c : Char) : Str → Bool
  | [] => false
  | x :: xs => x = c || containsChar c xs

/-- Split at the first occurrence of `c`: models Rust `str::splitn(2, c)`.
The second component is `none` exactly when `c` does not occur
(Rust's iterator then yields a single piece). -/
def splitOnce (c : Char) : Str → Str × Option Str
  | [] => ([], none)
  | x :: xs =>
    if x = c then ([], some xs)
    else
      let r := splitOnce c xs
      (x :: r.1, r.2)

/-- Split on every occurrence of `c`: models Rust `str::split(char)`
(always at least one piece, empty pieces preserved). -/
def splitOnChar (c : Char) : Str → List Str
  | [] => [[]]
  | x :: xs =>
    if x = c then [] :: splitOnChar c xs
    else
      match splitOnChar c xs with
      | [] => [[x]]
      | h :: t => (x :: h) :: t

/-- ASCII whitespace set used by Rust `char::is_whitespace` /
`str::split_whitespace` / `str::trim` (restricted to the ASCII range,
which is all these inputs use). -/
def isWsChar (c : Char) : Bool :=
  c = ' ' || c = '\t' || c = '\n' || c = '\r' || c = Char.ofNat 11 || c = Char.ofNat 12

/-- Accumulating worker for `splitWhitespace`. -/
def splitWsAux : Str → Str → List Str
  | acc, [] => if acc = [] then [] else [acc.reverse]
  | acc, c :: cs =>
    if isWsChar c then
      if acc = [] then splitWsAux [] cs else acc.reverse :: splitWsAux [] cs
    else splitWsAux (c :: acc) cs

/-- Models Rust `str::split_whitespace` (splits on whitespace runs,
yields no empty tokens). -/
def splitWhitespace (s : Str) : List Str := splitWsAux [] s

/-- Drop leading whitespace characters. -/
def dropLeadingWs : Str → Str
  | [] => []
  | c :: cs => if isWsChar c then dropLeadingWs cs else c :: cs

/-- Models Rust `str::trim`. -/
def trimWs (s : Str) : Str := (dropLeadingWs (dropLeadingWs s).reverse).reverse

/-- Strip one trailing carriage return (part of Rust `str::lines`). -/
def stripTrailingCR (l : Str) : Str :=
  match l.getLast? with
  | some c => if c = '\r' then l.dropLast else l
  | none => l

/-- Models Rust `str::lines`: split on LF, drop the final empty piece
produced by a trailing LF, strip one trailing CR from each line. -/
def rustLines (s : Str) : List Str :=
  let parts := splitOnChar '\n' s
  let parts2 := if parts.getLast? = some ([] : Str) then parts.dropLast else parts
  parts2.map stripTrailingCR

/-- Bytes of an ASCII string (helper for concrete inputs). -/
def asciiBytes (s : String) : List Nat := s.data.map Char.toNat

/- ### UTF-8 lossy decoding -/

/-- Continuation byte test `0x80 ≤ b ≤ 0xBF`. -/
def contB (b : Nat) : Bool := 128 ≤ b && b ≤ 191

/-- Constraint on the second byte of a three-byte sequence
(excludes overlong encodings and surrogates, per WHATWG/UTF-8). -/
def cont3Fst (b c1 : Nat) : Bool :=
  if b = 224 then 160 ≤ c1 && c1 ≤ 191
  else if b = 237 then 128 ≤ c1 && c1 ≤ 159
  else contB c1

/-- Constraint on the second byte of a four-byte sequence. -/
def cont4Fst (b c1 : Nat) : Bool :=
  if b = 240 then 144 ≤ c1 && c1 ≤ 191
  else if b = 244 then 128 ≤ c1 && c1 ≤ 143
  else contB c1

/-- The replacement character U+FFFD. -/
def replChar : Char := Char.ofNat 65533

/-- Decode one scalar value starting at lead byte `b` with remaining
input `bs`; returns the decoded character (or U+FFFD) and how many
bytes of `bs` were consumed in addition to `b`. -/
def decodeOne (b : Nat) (bs : List Nat) : Char × Nat :=
  if b ≤ 127 then (Char.ofNat b, 0)
  else if 194 ≤ b && b ≤ 223 then
    match bs with
    | c1 :: _ => if contB c1 then (Char.ofNat ((b % 32) * 64 + c1 % 64), 1) else (replChar, 0)
    | [] => (replChar, 0)
  else if 224 ≤ b && b ≤ 239 then
    match bs with
    | c1 :: c2 :: _ =>
      if cont3Fst b c1 && contB c2 then
        (Char.ofNat ((b % 16) * 4096 + (c1 % 64) * 64 + c2 % 64), 2)
      else if cont3Fst b c1 then (replChar, 1)
      else (replChar, 0)
    | [c1] => if cont3Fst b c1 then (replChar, 1) else (replChar, 0)
    | [] => (replChar, 0)
  else if 240 ≤ b && b ≤ 244 then
    match bs with
    | c1 :: c2 :: c3 :: _ =>
      if cont4Fst b c1 && contB c2 && contB c3 then
        (Char.ofNat ((b % 8) * 262144 + (c1 % 64) * 4096 + (c2 % 64) * 64 + c3 % 64), 3)
      else if cont4Fst b c1 && contB c2 then (replChar, 2)
      else if cont4Fst b c1 then (replChar, 1)
      else (replChar, 0)
    | [c1, c2] =>
      if cont4Fst b c1 && contB c2 then (replChar, 2)
      else if cont4Fst b c1 then (replChar, 1)
      else (replChar, 0)
    | [c1] => if cont4Fst b c1 then (replChar, 1) else (replChar, 0)
    | [] => (replChar, 0)
  else (replChar, 0)

/-- Fuel-indexed worker for `utf8Lossy`; each step consumes at least one
byte, so fuel equal to the input length is always enough. -/
def utf8LossyFuel : Nat → List Nat → Str
  | 0, _ => []
  | _ + 1, [] => []
  | fuel + 1, b :: bs =>
    let r := decodeOne b bs
    r.1 :: utf8LossyFuel fuel (bs.drop r.2)

/-- Models Rust `String::from_utf8_lossy`: valid UTF-8 sequences are
decoded, each maximal invalid subpart becomes U+FFFD; decoding never
fails. -/
def utf8Lossy (l : List Nat) : Str := utf8LossyFuel l.length l

/- ### Data model (from `src/request/mod.rs` and spec sections 2 and 3) -/

/-- Modelled from the spec: the `Method` enum (`src/request/method.rs` is
not in the sources). Spec section 3: closed set of HTTP verb tokens,
parsed by exact case-sensitive match. -/
inductive Method where
  | GET | POST | PUT | DELETE | HEAD | OPTIONS | PATCH
deriving DecidableEq

/-- Modelled from the spec: `Method::try_from(&str)` — exact
(case-sensitive) token match, unrecognized token is an error
(spec section 4.1). -/
def Method.tryFrom (s : Str) : Option Method :=
  if s = "GET".data then some .GET
  else if s = "POST".data then some .POST
  else if s = "PUT".data then some .PUT
  else if s = "DELETE".data then some .DELETE
  else if s = "HEAD".data then some .HEAD
  else if s = "OPTIONS".data then some .OPTIONS
  else if s = "PATCH".data then some .PATCH
  else none

/-- Modelled from the spec: `crate::router::Route` (not in the sources) —
an opaque value holding the method and the path, built by
`Route::new(method, path)` and compared by equality (spec section 9). -/
structure Route where
  method : Method
  path : Str
deriving DecidableEq

/-- A parsed query: ordered list of key/value pairs, duplicates
preserved (spec section 3). -/
abbrev Query := List (Str × Str)

/-- A cookie list: name/value pairs from a `Cookie` header
(spec section 3). -/
abbrev CookieList := List (Str × Str)

/-- The request error enum `RequestError` of `src/request/mod.rs`
(the `crate::Error` wrapper is flattened away; `QueryError` and
`CookieError` arrive through the same wrapper). -/
inductive Error where
  | InvalidRequest (s : Str)
  | InvalidRequestMethod (s : Str)
  | NoUrlFound
  | HttpVersionNotSupported (s : Str)
  | InvalidHeader (s : Str)
  | QueryError (s : Str)
  | CookieError (s : Str)
deriving DecidableEq

/-- Rust `Result<α, crate::Error>` as used by the request parser. -/
inductive ParseResult (α : Type) where
  | ok : α → ParseResult α
  | err : Error → ParseResult α
deriving DecidableEq

/-- The `Request` struct of `src/request/mod.rs` (same field order). -/
structure Request where
  path : Route
  query : Option Query
  cookies : CookieList
  headers : List (Str × Str)
  body : Option (List Nat)
deriving DecidableEq

/-- `Request::new(method, path, query)` from `src/request/mod.rs`
lines 36-46: fresh headers, empty cookie list, absent body. -/
def Request.new (method : Method) (p : Str) (query : Option Query) : Request :=
  { path := ⟨method, p⟩
    query := query
    cookies := []
    headers := []
    body := none }

/-- Modelled from the spec: the header-map insert produced by the
`generate_package_getters_setters!` macro (`src/package.rs` is not in
the sources). Spec sections 3 and 6: `add_header(key, value)` is
insert/overwrite, last write wins, keys stored exactly as received. -/
def insertHeader (k v : Str) : List (Str × Str) → List (Str × Str)
  | [] => [(k, v)]
  | p :: rest => if p.1 = k then (k, v) :: rest else p :: insertHeader k v rest

/-- Modelled from the spec: header lookup (`get_header_list().get(..)`)
from the same generated accessor capability — exact key match. -/
def lookupHeader (k : Str) : List (Str × Str) → Option Str
  | [] => none
  | p :: rest => if p.1 = k then some p.2 else lookupHeader k rest

/-- `request.add_header(key, value)` as used in `parse_header_str`. -/
def addHeaderReq (r : Request) (k v : Str) : Request :=
  { r with headers := insertHeader k v r.headers }

/-- Modelled from the spec: the generated `set_body` setter
(`src/package.rs` is not in the sources). Spec section 3 invariant:
`body` is `None` exactly when no bytes followed the separator, so an
empty buffer leaves the body absent. -/
def setBody (r : Request) (bs : List Nat) : Request :=
  { r with body := if bs = [] then none else some bs }

/- ### Query and cookie parsing (modelled from the spec) -/

/-- Modelled from the spec: worker for `Query::try_from`
(`src/request/query.rs` is not in the sources). Each candidate pair is
split once on the first `=`; a pair with no `=` fails with
`QueryError(original_string)`, atomically (spec section 4.2). -/
def parseQueryPairs (orig : Str) : List Str → ParseResult Query
  | [] => .ok []
  | pair :: rest =>
    match splitOnce '=' pair with
    | (_, none) => .err (.QueryError orig)
    | (k, some v) =>
      match parseQueryPairs orig rest with
      | .err e => .err e
      | .ok t => .ok ((k, v) :: t)

/-- Modelled from the spec: `Query::try_from(&str)` — split on `&` into
candidate pairs, each split once on the first `=`
(spec section 4.2; `src/request/query.rs` is not in the sources). -/
def parseQuery (s : Str) : ParseResult Query := parseQueryPairs s (splitOnChar '&' s)

/-- Modelled from the spec: worker for `CookieList::try_from` — each
segment is whitespace-trimmed then split once on the first `=`; a
segment without `=` fails with `CookieError(segment)`
(spec section 4.3; `src/request/cookie_list.rs` is not in the sources). -/
def parseCookieSegs : List Str → ParseResult CookieList
  | [] => .ok []
  | seg :: rest =>
    let t := trimWs seg
    match splitOnce '=' t with
    | (_, none) => .err (.CookieError t)
    | (n, some v) =>
      match parseCookieSegs rest with
      | .err e => .err e
      | .ok tl => .ok ((n, v) :: tl)

/-- Modelled from the spec: `CookieList::try_from(&str)` — split the
`Cookie` header value on `;` (spec section 4.3). -/
def parseCookieList (s : Str) : ParseResult CookieList := parseCookieSegs (splitOnChar ';' s)

/- ### Request parsing (`Request::parse_header_str`, lines 56-173) -/

/-- Lines 86-111: resolve the target token into path and optional query.
When the target contains `?`, `splitn(2, '?')` always yields a second
(possibly empty) piece, so the `QueryError(target)` arm modelling the
iterator's `None` case is unreachable; it is kept to mirror the code. -/
def parsePathQuery (target : Str) : ParseResult (Str × Option Query) :=
  if containsChar '?' target then
    match (splitOnce '?' target).2 with
    | none => .err (.QueryError target)
    | some qs =>
      match parseQuery qs with
      | .err e => .err e
      | .ok q => .ok ((splitOnce '?' target).1, some q)
  else .ok (target, none)

/-- Lines 59-129: consume the whitespace-separated tokens of the request
line (`raw` is the whole header string, used in `InvalidRequest`
payloads). Tokens beyond the third are ignored, as with the iterator. -/
def parseRequestLine (raw : Str) : List Str → ParseResult Request
  | [] => .err (.InvalidRequest raw)
  | mtok :: rest =>
    match Method.tryFrom mtok with
    | none => .err (.InvalidRequestMethod mtok)
    | some method =>
      match rest with
      | [] => .err .NoUrlFound
      | target :: rest2 =>
        match parsePathQuery target with
        | .err e => .err e
        | .ok pq =>
          match rest2 with
          | [] => .err (.InvalidRequest raw)
          | ver :: _ =>
            if containsSub "HTTP/".data ver = false then
              .err (.HttpVersionNotSupported ver)
            else .ok (Request.new method pq.1 pq.2)

/-- Lines 137-163: the header-line loop — stop at the first empty line,
split each line once on the first `:`, trim the value, insert. The
first `splitn` piece always exists, so only the missing-second-piece
(no colon) arm can raise `InvalidHeader`. -/
def processHeaders (r : Request) : List Str → ParseResult Request
  | [] => .ok r
  | line :: rest =>
    if line = [] then .ok r
    else
      match splitOnce ':' line with
      | (_, none) => .err (.InvalidHeader line)
      | (k, some v) => processHeaders (addHeaderReq r k (trimWs v)) rest

/-- Lines 56-163: request line plus header loop (everything in
`parse_header_str` before the cookie lookup). -/
def parsePreCookie (s : Str) : ParseResult Request :=
  match rustLines s with
  | [] => .err (.InvalidRequest s)
  | l :: rest =>
    match parseRequestLine s (splitWhitespace l) with
    | .err e => .err e
    | .ok r => processHeaders r rest

/-- Lines 165-172: after the headers, look up the header named exactly
`Cookie`; if present, parse it and overwrite the cookie list. -/
def cookieStep (r : Request) : ParseResult Request :=
  match lookupHeader "Cookie".data r.headers with
  | none => .ok r
  | some v =>
    match parseCookieList v with
    | .err e => .err e
    | .ok cl => .ok { r with cookies := cl }

/-- `Request::parse_header_str` (lines 56-173). -/
def parse_header_str (s : Str) : ParseResult Request :=
  match parsePreCookie s with
  | .err e => .err e
  | .ok r => cookieStep r

/- ### Byte-form parsing (lines 192-226) -/

/-- One expansion step of the `split_sequence!` macro body
(lines 197-206): if `sep` occurs in the current body, the header
becomes the part of the body before it and the body the part after. -/
def splitStep (sep : List Nat) (hb : List Nat × List Nat) : List Nat × List Nat :=
  match findSeq sep hb.2 with
  | some p => (hb.2.take p, hb.2.drop (p + sep.length))
  | none => hb

/-- `split_sequence!(binary_data, b"\r\n\r\n", b"\n\n")` (lines 192-210):
header starts empty, body starts as the whole input, then each
separator is applied as a conditional split in turn. -/
def split_sequence (bs : List Nat) : List Nat × List Nat :=
  splitStep [10, 10] (splitStep [13, 10, 13, 10] ([], bs))

/-- `TryFrom<Vec<u8>> for Request` (lines 212-226): split the bytes,
lossily decode the header part, run the text parser, attach the body. -/
def request_try_from_bytes (bs : List Nat) : ParseResult Request :=
  match split_sequence bs with
  | (header, body) =>
    match parse_header_str (utf8Lossy header) with
    | .err e => .err e
    | .ok r => .ok (setBody r body)

/- ### Spec-described byte splitting (for comparison with the code) -/

/-- Follows the spec's words (section 4.4, byte form), for comparison
with `split_sequence`: locate the first occurrence of a separator,
trying `CRLF CRLF` first and only then `LF LF`; split at that boundary,
discarding the separator; when no separator occurs, the whole input is
the header portion and the body is absent. -/
def spec_split_sequence (bs : List Nat) : List Nat × Option (List Nat) :=
  match findSeq [13, 10, 13, 10] bs with
  | some p => (bs.take p, some (bs.drop (p + 4)))
  | none =>
    match findSeq [10, 10] bs with
    | some q => (bs.take q, some (bs.drop (q + 2)))
    | none => (bs, none)

/-- Follows the spec's words: the byte-form parse as described in
section 4.4 — split per `spec_split_sequence`, decode the header part
lossily, run the text parser, attach the body bytes when present. -/
def spec_request_from_bytes (bs : List Nat) : ParseResult Request :=
  match spec_split_sequence bs with
  | (header, obody) =>
    match parse_header_str (utf8Lossy header) with
    | .err e => .err e
    | .ok r =>
      match obody with
      | some body => .ok (setBody r body)
      | none => .ok r

/- ### Response serialization (modelled from the spec and the tests) -/

/-- Modelled from the spec: the `Status` enum with status code and
reason phrase (`src/response` is not in the sources); only the variants
exercised by `tests/test_response.rs` are needed. -/
inductive Status where
  | OK | MovedPermanently | Processing
deriving DecidableEq

/-- Numeric code rendered on the status line. -/
def Status.code : Status → Str
  | .OK => "200".data
  | .MovedPermanently => "301".data
  | .Processing => "102".data

/-- Reason phrase rendered on the status line. -/
def Status.reason : Status → Str
  | .OK => "OK".data
  | .MovedPermanently => "Moved Permanently".data
  | .Processing => "Processing".data

/-- Modelled from the spec: the `Response` struct (spec section 3) —
status, header map with observable insertion order, optional body
(`src/response` is not in the sources). -/
structure Response where
  status : Status
  headers : List (Str × Str)
  body : Option Str
deriving DecidableEq

/-- Modelled from the spec: `Response::new(status)` — no headers, no
body. -/
def Response.new (s : Status) : Response := ⟨s, [], none⟩

/-- Modelled from the spec: `add_header(key, value)` on a response —
insert/overwrite, insertion order preserved. -/
def Response.add_header (r : Response) (k v : Str) : Response :=
  { r with headers := insertHeader k v r.headers }

/-- Modelled from the spec: `set_body_string(s)`. -/
def Response.set_body_string (r : Response) (s : Str) : Response :=
  { r with body := some s }

/-- Modelled from the spec: `redirect(location)` — set the status to
301 Moved Permanently (overwriting any previous status) and add a
`Location` header with the given target (spec section 4.5). -/
def Response.redirect (r : Response) (loc : Str) : Response :=
  Response.add_header { r with status := .MovedPermanently } "Location".data loc

/-- Body text of a response, empty when absent. -/
def bodyStr : Option Str → Str
  | some b => b
  | none => []

/-- One `key: value` line per header entry, in list order. -/
def renderHeaders : List (Str × Str) → Str
  | [] => []
  | p :: rest => p.1 ++ ": ".data ++ p.2 ++ "\r\n".data ++ renderHeaders rest

/-- Modelled from the spec: `Response::to_string` (spec section 4.5,
pinned by `tests/test_response.rs`): status line, header lines, a
single blank line always present, then the body with no trailing
terminator. -/
def Response.to_string (r : Response) : Str :=
  "HTTP/1.1 ".data ++ r.status.code ++ " ".data ++ r.status.reason ++ "\r\n".data
    ++ renderHeaders r.headers ++ "\r\n".data ++ bodyStr r.body

/- ### Helper lemmas -/

theorem leadsWith_append {α : Type} [DecidableEq α] (l t : List α) :
    leadsWith l (l ++ t) = true := by
  induction l with
  | nil => rfl
  | cons a as ih => simp [leadsWith, ih]

theorem containsSub_here {α : Type} [DecidableEq α] (pat b : List α) :
    containsSub pat (pat ++ b) = true := by
  cases pat with
  | nil => cases b <;> simp [containsSub, leadsWith]
  | cons p ps =>
    have hl := leadsWith_append (p :: ps) b
    simp only [List.cons_append] at hl ⊢
    simp [containsSub, hl]

theorem containsSub_decomp {α : Type} [DecidableEq α] (a pat b : List α) :
    containsSub pat (a ++ pat ++ b) = true := by
  induction a with
  | nil => simpa using containsSub_here pat b
  | cons x xs ih =>
    simp only [List.cons_append, containsSub, Bool.or_eq_true]
    exact Or.inr ih

theorem findSeq_eq_none {α : Type} [DecidableEq α] (pat l : List α)
    (h : containsSub pat l = false) : findSeq pat l = none := by
  induction l with
  | nil => simp only [containsSub] at h; simp [findSeq, h]
  | cons x xs ih =>
    simp only [containsSub, Bool.or_eq_false_iff] at h
    simp [findSeq, h.1, ih h.2]

theorem splitOnce_of_not_contains (c : Char) (s : Str)
    (h : containsChar c s = false) : splitOnce c s = (s, none) := by
  induction s with
  | nil => rfl
  | cons x xs ih =>
    simp only [containsChar, Bool.or_eq_false_iff] at h
    have hne : ¬ x = c := by simpa using h.1
    simp [splitOnce, hne, ih h.2]

theorem splitOnce_append_cons (c : Char) (k v : Str)
    (h : containsChar c k = false) : splitOnce c (k ++ c :: v) = (k, some v) := by
  induction k with
  | nil => simp [splitOnce]
  | cons x xs ih =>
    simp only [containsChar, Bool.or_eq_false_iff] at h
    have hne : ¬ x = c := by simpa using h.1
    simp [splitOnce, hne, ih h.2]

theorem containsChar_append_cons (c : Char) (k v : Str) :
    containsChar c (k ++ c :: v) = true := by
  induction k with
  | nil => simp [containsChar]
  | cons x xs ih => simp [containsChar, ih]

theorem lookupHeader_insert (k v : Str) (m : List (Str × Str)) :
    lookupHeader k (insertHeader k v m) = some v := by
  induction m with
  | nil => simp [insertHeader, lookupHeader]
  | cons p rest ih =>
    by_cases h : p.1 = k
    · simp [insertHeader, h, lookupHeader]
    · simp [insertHeader, h, lookupHeader, ih]

theorem renderHeaders_insert (k v : Str) (m : List (Str × Str)) :
    ∃ a b, renderHeaders (insertHeader k v m)
      = a ++ (k ++ ": ".data ++ v ++ "\r\n".data) ++ b := by
  induction m with
  | nil => exact ⟨[], [], by simp [insertHeader, renderHeaders]⟩
  | cons p rest ih =>
    by_cases h : p.1 = k
    · exact ⟨[], renderHeaders rest, by simp [insertHeader, h, renderHeaders]⟩
    · obtain ⟨a, b, hab⟩ := ih
      refine ⟨p.1 ++ ": ".data ++ p.2 ++ "\r\n".data ++ a, b, ?_⟩
      simp [insertHeader, h, renderHeaders, hab]

theorem parseRequestLine_cookies (raw : Str) (parts : List Str) (r : Request)
    (h : parseRequestLine raw parts = .ok r) : r.cookies = [] := by
  simp only [parseRequestLine] at h
  repeat' split at h
  all_goals (cases h <;> rfl)

theorem processHeaders_cookies (ls : List Str) (r r2 : Request)
    (h : processHeaders r ls = .ok r2) : r2.cookies = r.cookies := by
  induction ls generalizing r with
  | nil =>
    simp only [processHeaders] at h
    injection h with h2; subst h2; rfl
  | cons line rest ih =>
    simp only [processHeaders] at h
    split at h
    · injection h with h2; subst h2; rfl
    · split at h
      · cases h
      · exact (ih _ h).trans rfl

theorem parsePreCookie_cookies (s : Str) (r : Request)
    (h : parsePreCookie s = .ok r) : r.cookies = [] := by
  cases hl : rustLines s with
  | nil => simp [parsePreCookie, hl] at h
  | cons l rest =>
    cases hr : parseRequestLine s (splitWhitespace l) with
    | err e => simp [parsePreCookie, hl, hr] at h
    | ok r0 =>
      simp only [parsePreCookie, hl, hr] at h
      rw [processHeaders_cookies rest r0 r h]
      exact parseRequestLine_cookies s (splitWhitespace l) r0 hr

/- ### Claims -/

/-- Claim C1 (counterexample): on the input
`"GET / HTTP/1.1\r\n\r\nA\n\nB"` the macro's second conditional split
re-splits the already-extracted body at `LF LF`, so the header becomes
`"A"` and the parse fails, while the ordered-precedence split the claim
describes keeps the header `"GET / HTTP/1.1"` and yields body
`"A\n\nB"`. -/
theorem c1_counterexample :
    split_sequence (asciiBytes "GET / HTTP/1.1\r\n\r\nA\n\nB")
      = (asciiBytes "A", asciiBytes "B")
    ∧ spec_split_sequence (asciiBytes "GET / HTTP/1.1\r\n\r\nA\n\nB")
      = (asciiBytes "GET / HTTP/1.1", some (asciiBytes "A\n\nB"))
    ∧ request_try_from_bytes (asciiBytes "GET / HTTP/1.1\r\n\r\nA\n\nB")
      = .err (.InvalidRequestMethod "A".data)
    ∧ spec_request_from_bytes (asciiBytes "GET / HTTP/1.1\r\n\r\nA\n\nB")
      = .ok (setBody (Request.new .GET "/".data none) (asciiBytes "A\n\nB")) := by
  refine ⟨by decide, by decide, by decide, by decide⟩

/-- Claim C1 (amended): the byte-form parser applies the two candidate
separators as successive conditional splits on the current remainder,
not as one ordered-precedence search: it first splits at the first
`CRLF CRLF` if present, then, if the remaining body still contains
`LF LF`, splits that body again at its first `LF LF`, replacing the
header with the body's prefix; the split matches the claimed ordered
precedence only when the part after the `CRLF CRLF` boundary contains
no `LF LF`, and when neither separator occurs the header is empty and
the body is the whole input. -/
theorem c1_split_behavior (bs : List Nat) :
    split_sequence bs
      = match findSeq [13, 10, 13, 10] bs with
        | some p =>
          match findSeq [10, 10] (bs.drop (p + 4)) with
          | some q => ((bs.drop (p + 4)).take q, (bs.drop (p + 4)).drop (q + 2))
          | none => (bs.take p, bs.drop (p + 4))
        | none =>
          match findSeq [10, 10] bs with
          | some q => (bs.take q, bs.drop (q + 2))
          | none => ([], bs) := by
  cases h1 : findSeq [13, 10, 13, 10] bs with
  | some p =>
    cases h2 : findSeq [10, 10] (bs.drop (p + 4)) with
    | some q => simp [split_sequence, splitStep, h1, h2]
    | none => simp [split_sequence, splitStep, h1, h2]
  | none =>
    cases h2 : findSeq [10, 10] bs with
    | some q => simp [split_sequence, splitStep, h1, h2]
    | none => simp [split_sequence, splitStep, h1, h2]

/-- Claim C2 (counterexample): for the separator-free input
`"GET / HTTP/1.1"` the macro leaves the header empty and makes the
entire input the body, so parsing fails with `InvalidRequest("")` —
the input is not treated as the header portion. -/
theorem c2_counterexample :
    containsSub [13, 10, 13, 10] (asciiBytes "GET / HTTP/1.1") = false
    ∧ containsSub [10, 10] (asciiBytes "GET / HTTP/1.1") = false
    ∧ split_sequence (asciiBytes "GET / HTTP/1.1") = ([], asciiBytes "GET / HTTP/1.1")
    ∧ asciiBytes "GET / HTTP/1.1" ≠ []
    ∧ request_try_from_bytes (asciiBytes "GET / HTTP/1.1") = .err (.InvalidRequest []) := by
  refine ⟨by decide, by decide, by decide, by decide, by decide⟩

/-- Claim C2 (amended): for every raw byte input containing neither
`CRLF CRLF` nor `LF LF`, the header portion is empty and the entire
input becomes the body, so the byte-form parse always fails with
`InvalidRequest` carrying the empty string and no Request results. -/
theorem c2_no_separator (bs : List Nat)
    (h1 : containsSub [13, 10, 13, 10] bs = false)
    (h2 : containsSub [10, 10] bs = false) :
    split_sequence bs = ([], bs)
    ∧ request_try_from_bytes bs = .err (.InvalidRequest []) := by
  have n1 := findSeq_eq_none _ _ h1
  have n2 := findSeq_eq_none _ _ h2
  have hs : split_sequence bs = ([], bs) := by
    simp [split_sequence, splitStep, n1, n2]
  refine ⟨hs, ?_⟩
  simp only [request_try_from_bytes, hs]
  rfl

/-- Witness for `c2_no_separator` at a concrete separator-free input. -/
theorem c2_no_separator_witness :
    split_sequence (asciiBytes "abc") = ([], asciiBytes "abc")
    ∧ request_try_from_bytes (asciiBytes "abc") = .err (.InvalidRequest []) :=
  c2_no_separator (asciiBytes "abc") (by decide) (by decide)

/-- Claim C3 (counterexample): for the request line `"GET /a? HTTP/1.1"`
(empty segment after `?`) the parse fails with `QueryError("")` — the
error carries the empty query string, not the target `"/a?"` as the
claim states (the code's `QueryError(target)` arm is unreachable
because `splitn(2, '?')` always yields a second piece). -/
theorem c3_counterexample :
    parse_header_str "GET /a? HTTP/1.1".data = .err (.QueryError [])
    ∧ ("/a?".data : Str) ≠ [] := by
  refine ⟨by decide, by decide⟩

/-- Claim C3 (amended): a target containing `?` is split once on the
first `?` into path and query-string; the (possibly empty) segment
after `?` is handed to the query parser, so an empty segment fails
with `QueryError` carrying the empty query string rather than the
target, and any error from parsing the query-string propagates so the
whole request parse fails with no partial Request. -/
theorem c3_query_split (raw m p q v : Str) (mm : Method)
    (hm : Method.tryFrom m = some mm) (hp : containsChar '?' p = false)
    (hv : containsSub "HTTP/".data v = true) :
    parseRequestLine raw [m, p ++ '?' :: q, v]
      = (match parseQuery q with
         | .err e => .err e
         | .ok qq => .ok (Request.new mm p (some qq)))
    ∧ parseQuery [] = .err (.QueryError []) := by
  constructor
  · have hc := containsChar_append_cons '?' p q
    have hs := splitOnce_append_cons '?' p q hp
    cases hq : parseQuery q with
    | err e => simp [parseRequestLine, hm, parsePathQuery, hc, hs, hq]
    | ok qq => simp [parseRequestLine, hm, parsePathQuery, hc, hs, hq, hv]
  · decide

/-- Witness for `c3_query_split` at a concrete request line. -/
theorem c3_query_split_witness :
    parseRequestLine [] ["GET".data, "/a".data ++ '?' :: "x=1".data, "HTTP/1.1".data]
      = (match parseQuery "x=1".data with
         | .err e => .err e
         | .ok qq => .ok (Request.new .GET "/a".data (some qq))) :=
  (c3_query_split [] "GET".data "/a".data "x=1".data "HTTP/1.1".data .GET
    (by decide) (by decide) (by decide)).1

/-- Claim C4 (confirmed): with a valid method and a query-free target,
a third token not containing `"HTTP/"` makes the parse fail with
`HttpVersionNotSupported` carrying that token, and a third token
containing `"HTTP/"` anywhere passes with no further validation of the
version number; in particular `"GET /a BOGUS\r\n\r\n"` fails with
`HttpVersionNotSupported("BOGUS")`. -/
theorem c4_version_check (raw m p v : Str) (mm : Method)
    (hm : Method.tryFrom m = some mm) (hp : containsChar '?' p = false) :
    (containsSub "HTTP/".data v = false →
      parseRequestLine raw [m, p, v] = .err (.HttpVersionNotSupported v))
    ∧ (containsSub "HTTP/".data v = true →
      parseRequestLine raw [m, p, v] = .ok (Request.new mm p none))
    ∧ parse_header_str "GET /a BOGUS\r\n\r\n".data
      = .err (.HttpVersionNotSupported "BOGUS".data) := by
  refine ⟨?_, ?_, by decide⟩
  · intro hv
    simp [parseRequestLine, hm, parsePathQuery, hp, hv]
  · intro hv
    simp [parseRequestLine, hm, parsePathQuery, hp, hv]

/-- Witness for `c4_version_check`: a bogus version token is rejected,
and a token merely containing the marker is accepted. -/
theorem c4_version_check_witness :
    parseRequestLine [] ["GET".data, "/a".data, "BOGUS".data]
      = .err (.HttpVersionNotSupported "BOGUS".data)
    ∧ parseRequestLine [] ["GET".data, "/a".data, "xHTTP/9z".data]
      = .ok (Request.new .GET "/a".data none) :=
  ⟨(c4_version_check [] "GET".data "/a".data "BOGUS".data .GET
      (by decide) (by decide)).1 (by decide),
   (c4_version_check [] "GET".data "/a".data "xHTTP/9z".data .GET
      (by decide) (by decide)).2.1 (by decide)⟩

/-- Claim C5 (confirmed): a non-empty header line without `:` fails
with `InvalidHeader` carrying the line; otherwise the key is the text
before the first `:`, the value is the text after it with surrounding
whitespace trimmed, and inserting an existing key overwrites the
previous value (last write wins). -/
theorem c5_header_lines (r : Request) (k vtext line : Str) (ls : List Str) :
    (line ≠ [] → containsChar ':' line = false →
      processHeaders r (line :: ls) = .err (.InvalidHeader line))
    ∧ (containsChar ':' k = false →
      processHeaders r ((k ++ ':' :: vtext) :: ls)
        = processHeaders (addHeaderReq r k (trimWs vtext)) ls)
    ∧ (∀ (m : List (Str × Str)) (v1 v2 : Str),
        lookupHeader k (insertHeader k v2 (insertHeader k v1 m)) = some v2) := by
  refine ⟨?_, ?_, ?_⟩
  · intro hne hc
    have hs := splitOnce_of_not_contains ':' line hc
    simp [processHeaders, hne, hs]
  · intro hk
    have hne : k ++ ':' :: vtext ≠ [] := by cases k <;> simp
    have hs := splitOnce_append_cons ':' k vtext hk
    simp [processHeaders, hne, hs]
  · intro m v1 v2
    exact lookupHeader_insert k v2 (insertHeader k v1 m)

/-- Witness for `c5_header_lines` on concrete lines and map. -/
theorem c5_header_lines_witness :
    processHeaders (Request.new .GET "/".data none) ["NoColon".data]
      = .err (.InvalidHeader "NoColon".data)
    ∧ processHeaders (Request.new .GET "/".data none) [("K".data ++ ':' :: " x ".data)]
      = processHeaders (addHeaderReq (Request.new .GET "/".data none) "K".data
          (trimWs " x ".data)) []
    ∧ lookupHeader "K".data (insertHeader "K".data "2".data
        (insertHeader "K".data "1".data [])) = some "2".data :=
  ⟨(c5_header_lines (Request.new .GET "/".data none) "K".data " x ".data
      "NoColon".data []).1 (by decide) (by decide),
   (c5_header_lines (Request.new .GET "/".data none) "K".data " x ".data
      "NoColon".data []).2.1 (by decide),
   (c5_header_lines (Request.new .GET "/".data none) "K".data " x ".data
      "NoColon".data []).2.2 [] "1".data "2".data⟩

/-- Claim C6 (confirmed): once the request line and header lines have
succeeded, the whole parse reduces to the final cookie step — it looks
up the header named exactly `Cookie`; when absent the built Request is
returned, and when present the cookie parse's error (or success)
becomes the final result, the only way a successfully built Request
can still fail at the end. -/
theorem c6_cookie_step (s : Str) (r : Request) (h : parsePreCookie s = .ok r) :
    parse_header_str s = cookieStep r
    ∧ (lookupHeader "Cookie".data r.headers = none → parse_header_str s = .ok r)
    ∧ (∀ v, lookupHeader "Cookie".data r.headers = some v →
        parse_header_str s
          = (match parseCookieList v with
             | .err e => .err e
             | .ok cl => .ok { r with cookies := cl })) := by
  have h1 : parse_header_str s = cookieStep r := by
    simp [parse_header_str, h]
  refine ⟨h1, ?_, ?_⟩
  · intro hn
    rw [h1]
    simp [cookieStep, hn]
  · intro v hv
    rw [h1]
    simp [cookieStep, hv]

/-- Witness for `c6_cookie_step`: a malformed `Cookie` header makes the
whole parse fail at the very end. -/
theorem c6_cookie_step_witness :
    parse_header_str "GET / HTTP/1.1\r\nCookie: bad\r\n".data
      = .err (.CookieError "bad".data) := by
  have h := (c6_cookie_step "GET / HTTP/1.1\r\nCookie: bad\r\n".data
      ⟨⟨.GET, "/".data⟩, none, [], [("Cookie".data, "bad".data)], none⟩ (by decide)).1
  rw [h]
  decide

/-- Claim C7 (confirmed): a freshly constructed Request has an empty
cookie list, and any successfully parsed Request with non-empty
cookies got them from a present, well-formed `Cookie` header. -/
theorem c7_cookies_invariant :
    (∀ (m : Method) (p : Str) (q : Option Query), (Request.new m p q).cookies = [])
    ∧ (∀ (s : Str) (r : Request), parse_header_str s = .ok r → r.cookies ≠ [] →
        ∃ v, lookupHeader "Cookie".data r.headers = some v
          ∧ parseCookieList v = .ok r.cookies) := by
  refine ⟨fun _ _ _ => rfl, ?_⟩
  intro s r h hne
  cases hp : parsePreCookie s with
  | err e => simp [parse_header_str, hp] at h
  | ok r1 =>
    have hr1 : r1.cookies = [] := parsePreCookie_cookies s r1 hp
    have hcs : cookieStep r1 = .ok r := by
      simpa [parse_header_str, hp] using h
    cases hl : lookupHeader "Cookie".data r1.headers with
    | none =>
      simp only [cookieStep, hl] at hcs
      cases hcs
      exact absurd hr1 hne
    | some v =>
      simp only [cookieStep, hl] at hcs
      cases hc : parseCookieList v with
      | err e => rw [hc] at hcs; cases hcs
      | ok cl =>
        rw [hc] at hcs
        cases hcs
        exact ⟨v, hl, by rw [hc]⟩

/-- Witness for `c7_cookies_invariant` on a parsed request carrying one
cookie. -/
theorem c7_cookies_invariant_witness :
    ∃ v, lookupHeader "Cookie".data
        (Request.mk ⟨.GET, "/".data⟩ none [("a".data, "1".data)]
          [("Cookie".data, "a=1".data)] none).headers = some v
      ∧ parseCookieList v
        = .ok (Request.mk ⟨.GET, "/".data⟩ none [("a".data, "1".data)]
            [("Cookie".data, "a=1".data)] none).cookies :=
  c7_cookies_invariant.2 "GET / HTTP/1.1\r\nCookie: a=1\r\n".data
    (Request.mk ⟨.GET, "/".data⟩ none [("a".data, "1".data)]
      [("Cookie".data, "a=1".data)] none) (by decide) (by decide)

/-- Claim C8 (confirmed): serialization renders the status line, then
the header lines, then one blank line that is present even with zero
headers, then the body with no trailing terminator; the two pinned
strings from the tests come out exactly. -/
theorem c8_response_serialization :
    (Response.new .OK).to_string = "HTTP/1.1 200 OK\r\n\r\n".data
    ∧ ((Response.new .OK).set_body_string "Hello, world!".data).to_string
      = "HTTP/1.1 200 OK\r\n\r\nHello, world!".data
    ∧ ∀ (st : Status) (b : Str),
        (Response.mk st [] (some b)).to_string
          = "HTTP/1.1 ".data ++ st.code ++ " ".data ++ st.reason
            ++ "\r\n\r\n".data ++ b :=
  ⟨by decide, by decide, fun st b => by
    show "HTTP/1.1 ".data ++ st.code ++ " ".data ++ st.reason ++ "\r\n".data
        ++ renderHeaders [] ++ "\r\n".data ++ bodyStr (some b) = _
    simp [renderHeaders, bodyStr]⟩

/-- Claim C9 (confirmed): `redirect(location)` sets the status to
301 Moved Permanently regardless of the previous status and records a
`Location` header with the target, and the serialized response
contains the 301 status line and the `Location: <target>` text. -/
theorem c9_redirect (r : Response) (loc : Str) :
    (r.redirect loc).status = Status.MovedPermanently
    ∧ lookupHeader "Location".data (r.redirect loc).headers = some loc
    ∧ containsSub "HTTP/1.1 301 Moved Permanently".data ((r.redirect loc).to_string) = true
    ∧ containsSub ("Location: ".data ++ loc) ((r.redirect loc).to_string) = true := by
  refine ⟨rfl, lookupHeader_insert "Location".data loc r.headers, ?_, ?_⟩
  · have h : (r.redirect loc).to_string
        = "HTTP/1.1 301 Moved Permanently".data
          ++ ("\r\n".data ++ renderHeaders (insertHeader "Location".data loc r.headers)
              ++ "\r\n".data ++ bodyStr r.body) := rfl
    rw [h]
    exact containsSub_here _ _
  · obtain ⟨a, b, hab⟩ := renderHeaders_insert "Location".data loc r.headers
    have h : (r.redirect loc).to_string
        = "HTTP/1.1 301 Moved Permanently\r\n".data
          ++ renderHeaders (insertHeader "Location".data loc r.headers)
          ++ "\r\n".data ++ bodyStr r.body := rfl
    rw [h, hab]
    have heq : "HTTP/1.1 301 Moved Permanently\r\n".data
          ++ (a ++ ("Location".data ++ ": ".data ++ loc ++ "\r\n".data) ++ b)
          ++ "\r\n".data ++ bodyStr r.body
        = ("HTTP/1.1 301 Moved Permanently\r\n".data ++ a)
          ++ ("Location: ".data ++ loc)
          ++ ("\r\n".data ++ b ++ "\r\n".data ++ bodyStr r.body) := by
      simp
    rw [heq]
    exact containsSub_decomp _ _ _

/-- Claim C10 (confirmed): both directions of the codec are pure
functions of their input, so parsing the same input twice yields
structurally equal results and serializing the same Response twice
yields byte-identical output. -/
theorem c10_deterministic :
    (∀ bs : List Nat, request_try_from_bytes bs = request_try_from_bytes bs)
    ∧ (∀ s : Str, parse_header_str s = parse_header_str s)
    ∧ (∀ r : Response, r.to_string = r.to_string) :=
  ⟨fun _ => rfl, fun _ => rfl, fun _ => rfl⟩
